import Mathlib

/-!
Verification of the protocol-generator core of `rust-minecraft-protocol`.

The repository source available here is `protocol-generator/src/main.rs`.
The modules it references (`backend`, `frontend`, `mappings`,
`transformer`) are declared there but their files are not part of the
source tree given; where a claim depends on them, the corresponding
definitions are modelled from the specification and say so in their doc
comments.  Everything concerning `main`, `generate_rust_file`,
`format_snake_case` and `format_packet_id` is translated directly from
`main.rs`.
-/

namespace MCProto

/-- Connection phase, `frontend::State` in `main.rs` (the spec's `Phase`):
Handshake, Status, Login, Game, in the fixed order `main` processes them. -/
inductive State where
  | Handshake
  | Status
  | Login
  | Game
deriving DecidableEq, Repr

/-- Modelled from the spec: the Display of a phase used by `main` both in
`format!("{}{}BoundPacket", state, bound)` and (lowercased) in the output
file name. -/
def State.str : State → String
  | .Handshake => "Handshake"
  | .Status => "Status"
  | .Login => "Login"
  | .Game => "Game"

/-- Packet direction, `frontend::Bound` in `main.rs` (the spec's
`Direction`). -/
inductive Bound where
  | Server
  | Client
deriving DecidableEq, Repr

/-- Modelled from the spec: the Display of a direction used by `main` in
`format!("{}{}BoundPacket", state, bound)`. -/
def Bound.str : Bound → String
  | .Server => "Server"
  | .Client => "Client"

/-- Length policy of an array field: a fixed count, a count read from a
named sibling field, or a count consuming the rest of the buffer
(spec §3, `FieldType`/*Array*). -/
inductive LengthPolicy where
  | fixed (n : Nat)
  | sibling (name : String)
  | rest
deriving DecidableEq, Repr

mutual
/-- Modelled from the spec: the recursive field-type grammar of the schema
(`FieldType`, spec §3) — primitives, arrays with a length policy,
containers of named sub-fields, conditional options, switches (tagged
unions keyed by a sibling discriminant) with an optional default variant,
and bitfields.  The `transformer` module realising this is not under the
given source tree. -/
inductive FieldType where
  | primitive (name : String)
  | array (len : LengthPolicy) (elem : FieldType)
  | container (fields : Fields)
  | optional (cond : String) (inner : FieldType)
  | switch (disc : String) (variants : Variants) (default : FDefault)
  | bitfield (ranges : List (String × Nat))

/-- Ordered list of named sub-fields of a container (or of a packet). -/
inductive Fields where
  | nil
  | cons (name : String) (ty : FieldType) (rest : Fields)

/-- Ordered mapping from discriminant value to variant field type of a
switch. -/
inductive Variants where
  | nil
  | cons (tag : String) (ty : FieldType) (rest : Variants)

/-- Optional default variant of a switch. -/
inductive FDefault where
  | noDefault
  | withDefault (ty : FieldType)
end

/-- Target-type descriptor of a resolved field (spec §3, `ResolvedType`):
what shape the emitted type has after mapping-table resolution. -/
inductive TypeDescriptor where
  | prim (rustName : String)
  | array (len : LengthPolicy) (elem : TypeDescriptor)
  | record (fields : List (String × TypeDescriptor))
  | optional (inner : TypeDescriptor)
  | taggedUnion (discField : String) (variants : List (String × TypeDescriptor))
      (default : Option TypeDescriptor)
  | bitfield (storage : String) (ranges : List (String × Nat))

/-- A resolved type: target descriptor plus the imports it requires
(spec §3, `ResolvedType`). -/
structure ResolvedType where
  descriptor : TypeDescriptor
  imports : List String

/-- Modelled from the spec: the Type Mapping Table (`mappings::CodeMappings`;
the `mappings` module is not under the given source tree).  A finite,
explicit association from primitive type names to target type name and
required imports, plus the bitfield-storage rule keyed on total bit
width (spec §4.2, §4.3). -/
structure MappingTable where
  prims : List (String × String × List String)
  bitfieldStorage : Nat → String

/-- Lookup of a primitive type name in the table. -/
def MappingTable.lookupPrim (m : MappingTable) (name : String) :
    Option (String × List String) :=
  m.prims.lookup name

/-- Error taxonomy of the transformation (spec §7). -/
inductive TransError where
  | schemaFormat (msg : String)
  | unknownType (name : String)
  | nameCollision (msg : String)
deriving DecidableEq, Repr

/-- Append one import to an accumulated import list unless it is already
present: the first-seen-order union step (spec §4.3, *Container*). -/
def addImport (acc : List String) (i : String) : List String :=
  if i ∈ acc then acc else acc ++ [i]

/-- First-seen-order union of one import list into an accumulator. -/
def importUnion (acc l : List String) : List String :=
  l.foldl addImport acc

/-- First-seen-order union of a list of import lists, starting empty. -/
def unionAll (ls : List (List String)) : List String :=
  ls.foldl importUnion []

/-- Discriminant values of a switch's variant mapping, in declared order. -/
def Variants.tags : Variants → List String
  | .nil => []
  | .cons tag _ rest => tag :: rest.tags

/-- Whether two variants are declared for the same discriminant value. -/
def Variants.hasDupTag (vs : Variants) : Bool :=
  !(vs.tags.Nodup : Bool)

/-- Total bit width of a bitfield's declared ranges. -/
def totalWidth (ranges : List (String × Nat)) : Nat :=
  (ranges.map Prod.snd).sum

mutual
/-- Modelled from the spec: recursive-descent field resolution of the
Transformer (spec §4.3; the `transformer` module is not under the given
source tree).  Primitives are looked up in the Mapping Table, an unknown
name is an `unknownType` error; arrays and options resolve their inner
type and carry its imports; containers resolve sub-fields in declared
order and union their imports in first-seen order; switches first reject
colliding discriminant values as a `schemaFormat` error, then resolve
every variant and the default, unioning imports across all of them;
bitfields resolve to an opaque composite via the bitfield-storage rule,
requiring no imports. -/
def resolveType (m : MappingTable) : FieldType → Except TransError ResolvedType
  | .primitive name =>
    match m.lookupPrim name with
    | none => .error (.unknownType name)
    | some (rustName, imps) => .ok ⟨.prim rustName, imps⟩
  | .array len elem =>
    match resolveType m elem with
    | .error e => .error e
    | .ok r => .ok ⟨.array len r.descriptor, r.imports⟩
  | .container fields =>
    match resolveFields m fields with
    | .error e => .error e
    | .ok rs => .ok ⟨.record (rs.map fun f => (f.1, f.2.descriptor)),
        unionAll (rs.map fun f => f.2.imports)⟩
  | .optional _cond inner =>
    match resolveType m inner with
    | .error e => .error e
    | .ok r => .ok ⟨.optional r.descriptor, r.imports⟩
  | .switch disc variants default =>
    if variants.hasDupTag then
      .error (.schemaFormat "duplicate switch discriminant value")
    else
      match resolveVariants m variants with
      | .error e => .error e
      | .ok rs =>
        match resolveDefault m default with
        | .error e => .error e
        | .ok rd =>
          .ok ⟨.taggedUnion disc (rs.map fun v => (v.1, v.2.descriptor))
                (rd.map fun r => r.descriptor),
              unionAll (rs.map (fun v => v.2.imports) ++
                (rd.map fun r => r.imports).toList)⟩
  | .bitfield ranges =>
    .ok ⟨.bitfield (m.bitfieldStorage (totalWidth ranges)) ranges, []⟩

/-- Resolve the named sub-fields of a container in declared order. -/
def resolveFields (m : MappingTable) :
    Fields → Except TransError (List (String × ResolvedType))
  | .nil => .ok []
  | .cons name ty rest =>
    match resolveType m ty with
    | .error e => .error e
    | .ok r =>
      match resolveFields m rest with
      | .error e => .error e
      | .ok rs => .ok ((name, r) :: rs)

/-- Resolve every declared variant of a switch in declared order. -/
def resolveVariants (m : MappingTable) :
    Variants → Except TransError (List (String × ResolvedType))
  | .nil => .ok []
  | .cons tag ty rest =>
    match resolveType m ty with
    | .error e => .error e
    | .ok r =>
      match resolveVariants m rest with
      | .error e => .error e
      | .ok rs => .ok ((tag, r) :: rs)

/-- Resolve the optional default variant of a switch. -/
def resolveDefault (m : MappingTable) :
    FDefault → Except TransError (Option ResolvedType)
  | .noDefault => .ok none
  | .withDefault ty =>
    match resolveType m ty with
    | .error e => .error e
    | .ok r => .ok (some r)
end

/-- Modelled from the spec: a raw packet declaration as found in the
schema (spec §3, `RawPacketSpec`): a human name and a raw field tree; the
wire id is implicit in the declaration order. -/
structure RawPacketSpec where
  name : String
  fields : Fields

/-- A resolved packet of the Protocol IR (spec §3, `Packet`): numeric id
assigned from declaration order within its (phase, direction) group,
name, and the ordered resolved fields. -/
structure Packet where
  id : Nat
  name : String
  fields : List (String × ResolvedType)

/-- Modelled from the spec: the raw per-phase schema (spec §6): two
ordered arrays of packet declarations, one per direction. -/
structure RawProtocol where
  toServer : List RawPacketSpec
  toClient : List RawPacketSpec

/-- `backend::ProtocolHandler` as used by `main.rs`: the parsed schema
document with one raw per-phase group per phase key. -/
structure ProtocolHandler where
  handshaking : RawProtocol
  status : RawProtocol
  login : RawProtocol
  game : RawProtocol

/-- The Protocol IR record for one phase (`frontend::Protocol` as used by
`main.rs`; fields per spec §3, `Protocol`): phase tag, ordered
server-bound packets, ordered client-bound packets. -/
structure Protocol where
  state : State
  server_bound_packets : List Packet
  client_bound_packets : List Packet

/-- Modelled from the spec: transform one direction's ordered raw packet
list, assigning each packet the wire id equal to its zero-based position
in the declaration order (spec §4.3), starting from `i`. -/
def transformPacketsAux (m : MappingTable) (i : Nat) :
    List RawPacketSpec → Except TransError (List Packet)
  | [] => .ok []
  | p :: rest =>
    match resolveFields m p.fields with
    | .error e => .error e
    | .ok fs =>
      match transformPacketsAux m (i + 1) rest with
      | .error e => .error e
      | .ok ps => .ok ({ id := i, name := p.name, fields := fs } :: ps)

/-- Modelled from the spec: transform one (phase, direction) packet list.
Packet names within one group must be unique (spec §4.3 name-collision
policy; the normalization step is not further specified and is taken as
the identity); ids are assigned from zero in declaration order. -/
def transformPackets (m : MappingTable) (l : List RawPacketSpec) :
    Except TransError (List Packet) :=
  if (l.map RawPacketSpec.name).Nodup then transformPacketsAux m 0 l
  else .error (.nameCollision "duplicate packet name in group")

/-- Modelled from the spec: `transformer::transform_protocol` (the
`transformer` module is not under the given source tree): transform both
directions of one phase into a Protocol IR record (spec §4.3),
fail-fast on the first error. -/
def transform_protocol (m : MappingTable) (st : State) (raw : RawProtocol) :
    Except TransError Protocol :=
  match transformPackets m raw.toServer with
  | .error e => .error e
  | .ok sb =>
    match transformPackets m raw.toClient with
    | .error e => .error e
    | .ok cb => .ok { state := st, server_bound_packets := sb, client_bound_packets := cb }

/-- The import lists of every field of every packet of a Protocol IR
value, server-bound then client-bound, packets in order, fields in
order. -/
def Protocol.allFieldImportLists (p : Protocol) : List (List String) :=
  (p.server_bound_packets ++ p.client_bound_packets).flatMap
    fun pk => pk.fields.map fun f => f.2.imports

/-- Modelled from the spec: `frontend::Protocol::data_type_imports`
(the `frontend` module is not under the given source tree): the union of
all data-type imports used by any field in either packet list,
deduplicated in first-seen traversal order (spec §3 `Protocol`, §4.3
*Container*, §4.4). -/
def Protocol.data_type_imports (p : Protocol) : List String :=
  p.allFieldImportLists.foldl importUnion []

/-! ## The emission layer and `main`, translated from `main.rs`

The template engine is external (handlebars); it is modelled as an
abstract rendering function from a template name and a context to either
rendered text or a `RenderError`.  `generate_rust_file` and `main` below
follow `main.rs` line by line: writes go through the writer in sequence,
and the first failing call aborts via `?` / `.expect`.
-/

/-- A handlebars `RenderError` (external collaborator), reduced to its
message. -/
inductive RenderError where
  | mk (msg : String)
deriving DecidableEq, Repr

/-- The contexts `main.rs` passes to the template engine: the JSON
`{ "imports": imports }` value for the imports template, and a
`GenerateContext` (packet enum name plus packet list) for the enum and
struct templates. -/
inductive RenderCtx where
  | importsCtx (imports : List String)
  | generateCtx (packet_enum_name : String) (packets : List Packet)

/-- An abstract template engine: external collaborator behind
`render_to_write`. -/
def TemplateEngine := String → RenderCtx → Except RenderError String

/-- The fixed baseline imports of `generate_rust_file`
(`main.rs` lines 128-133), in source order. -/
def baselineImports : List String :=
  ["crate::DecodeError", "crate::Decoder", "std::io::Read",
   "minecraft_protocol_derive::Packet"]

/-- The full import list `generate_rust_file` hands to the
`packet_imports` template (`main.rs` lines 128-135): the baseline
imports followed by the protocol's data-type imports. -/
def importsFor (p : Protocol) : List String :=
  baselineImports ++ p.data_type_imports

/-- The server-bound `GenerateContext` of `generate_rust_file`
(`main.rs` lines 118-121). -/
def serverCtx (p : Protocol) : RenderCtx :=
  .generateCtx (p.state.str ++ Bound.Server.str ++ "BoundPacket") p.server_bound_packets

/-- The client-bound `GenerateContext` of `generate_rust_file`
(`main.rs` lines 123-126). -/
def clientCtx (p : Protocol) : RenderCtx :=
  .generateCtx (p.state.str ++ Bound.Client.str ++ "BoundPacket") p.client_bound_packets

/-- `generate_rust_file` (`main.rs` lines 113-150): renders, in order,
the import list, the packet-id enum for the server-bound then the
client-bound direction, then the packet structs for the server-bound
then the client-bound direction, appending each rendered piece to the
writer as it succeeds; the first `RenderError` aborts via `?`, leaving
whatever was already written in the writer.  The returned string is the
content the writer received. -/
def generate_rust_file (te : TemplateEngine) (p : Protocol) :
    String × Except RenderError Unit :=
  match te "packet_imports" (.importsCtx (importsFor p)) with
  | .error e => ("", .error e)
  | .ok s0 =>
    match te "packet_enum" (serverCtx p) with
    | .error e => (s0, .error e)
    | .ok s1 =>
      match te "packet_enum" (clientCtx p) with
      | .error e => (s0 ++ s1, .error e)
      | .ok s2 =>
        match te "packet_structs" (serverCtx p) with
        | .error e => (s0 ++ s1 ++ s2, .error e)
        | .ok s3 =>
          match te "packet_structs" (clientCtx p) with
          | .error e => (s0 ++ s1 ++ s2 ++ s3, .error e)
          | .ok s4 => (s0 ++ s1 ++ s2 ++ s3 ++ s4, .ok ())

/-- Rust's `to_lowercase()` as applied by `main` to the ASCII phase
names, modelled characterwise. -/
def lowerAscii (s : String) : String :=
  ⟨s.data.map Char.toLower⟩

/-- The output file path `main` computes for a phase
(`main.rs` lines 65-68). -/
def filePath (st : State) : String :=
  "protocol/src/packet/" ++ lowerAscii st.str ++ ".rs"

/-- Outcome of one `main` run: normal completion with the files written,
or a panic-style abort (`.expect`) with Rust's panic exit code and the
panic message, together with the files already written (and possibly
partially filled) at that point. -/
inductive RunOutcome where
  | success (files : List (String × String))
  | abort (files : List (String × String)) (exitCode : Nat) (message : String)
deriving DecidableEq, Repr

/-- The output loop of `main` (`main.rs` lines 64-73): for each phase in
order, create the output file at its final path and render into it;
`File::create` or `generate_rust_file` failure panics via `.expect`,
leaving the files written so far (the failing file keeps the partial
content already rendered into it). -/
def mainLoop (te : TemplateEngine) (createFile : String → Except String Unit)
    (written : List (String × String)) :
    List (Protocol × State) → RunOutcome
  | [] => .success written
  | (protocol, state) :: rest =>
    match createFile (filePath state) with
    | .error e => .abort written 101 ("Failed to create file: " ++ e)
    | .ok _ =>
      match generate_rust_file te protocol with
      | (content, .error (.mk e)) =>
        .abort (written ++ [(filePath state, content)]) 101
          ("Failed to generate rust file: " ++ e)
      | (content, .ok _) =>
        mainLoop te createFile (written ++ [(filePath state, content)]) rest

/-- Modelled from the spec for the transformer stage: `main.rs` calls
`transform_protocol` infallibly (the `transformer` module is not under
the given source tree); in this model a transformer error aborts the run
fail-fast (spec §4.3) with a message naming the phase. -/
def transformStage (m : MappingTable) (input : ProtocolHandler) :
    Except (State × TransError) (List (Protocol × State)) :=
  match transform_protocol m .Handshake input.handshaking with
  | .error e => .error (.Handshake, e)
  | .ok p1 =>
    match transform_protocol m .Status input.status with
    | .error e => .error (.Status, e)
    | .ok p2 =>
      match transform_protocol m .Login input.login with
      | .error e => .error (.Login, e)
      | .ok p3 =>
        match transform_protocol m .Game input.game with
        | .error e => .error (.Game, e)
        | .ok p4 =>
          .ok [(p1, .Handshake), (p2, .Status), (p3, .Login), (p4, .Game)]

/-- Rendering of a transformer error message, naming the phase (modelled
from the spec's propagation policy, §7). -/
def transErrorMsg (st : State) (e : TransError) : String :=
  "Failed to transform protocol for phase " ++ st.str ++ ": " ++
    (match e with
     | .schemaFormat s => "schema format error: " ++ s
     | .unknownType n => "unknown type: " ++ n
     | .nameCollision s => "name collision: " ++ s)

/-- `main` (`main.rs` lines 24-74) over its external collaborators:
the schema file open result, the parse result, the file-creation
behaviour, and the template engine.  Opening and parsing failures panic
with the fixed `.expect` messages; then all four phases are transformed
(Handshake, Status, Login, Game, in that order); then the output loop
writes one file per phase. -/
def mainRun (m : MappingTable) (openResult : Except String Unit)
    (parseResult : Except String ProtocolHandler)
    (createFile : String → Except String Unit)
    (te : TemplateEngine) : RunOutcome :=
  match openResult with
  | .error e => .abort [] 101 ("Failed to open protocol data file: " ++ e)
  | .ok _ =>
    match parseResult with
    | .error e => .abort [] 101 ("Failed to parse protocol data: " ++ e)
    | .ok input =>
      match transformStage m input with
      | .error (st, e) => .abort [] 101 (transErrorMsg st e)
      | .ok protocols => mainLoop te createFile [] protocols

/-! ## The `packet_id` template helper, translated from `main.rs`
(`format_packet_id`, lines 172-190) -/

/-- A JSON value as seen by the handlebars helper through
`serde_json::Value` (numbers are modelled as exact integers or a
non-integer marker; `as_u64` is `none` on the latter, matching serde's
behaviour on floating-point numbers). -/
inductive JsonValue where
  | null
  | bool (b : Bool)
  | str (s : String)
  | intNum (i : Int)
  | floatNum
  | arr (xs : List JsonValue)

/-- `serde_json::Value::as_u64`: `some` exactly when the value is an
integer number representable as a `u64`. -/
def JsonValue.as_u64 : JsonValue → Option Nat
  | .intNum i => if 0 ≤ i ∧ i < (2 : Int) ^ 64 then some i.toNat else none
  | _ => none

/-- Uppercase hexadecimal digit for `n < 16`. -/
def hexDigit (n : Nat) : Char :=
  if n < 10 then Char.ofNat (48 + n) else Char.ofNat (55 + n)

/-- Uppercase hexadecimal digit string of `n`, most significant first;
`fuel` bounds the recursion (any `fuel > n` is exact). -/
def natToHexAux : Nat → Nat → List Char
  | 0, _ => []
  | fuel + 1, n =>
    if n < 16 then [hexDigit n]
    else natToHexAux fuel (n / 16) ++ [hexDigit (n % 16)]

/-- Uppercase hexadecimal digit string of `n`. -/
def natToHex (n : Nat) : String :=
  ⟨natToHexAux (n + 1) n⟩

/-- Rust's `format!("{:#04X}", id)`: uppercase hexadecimal with a `0x`
prefix, zero-padded (between the prefix and the digits) to a minimum
total width of 4 characters, the prefix included. -/
def formatHex04X (id : Nat) : String :=
  let digits := natToHex id
  let pad := 4 - (2 + digits.length)
  "0x" ++ ⟨List.replicate pad '0'⟩ ++ digits

/-- `format_packet_id` (`main.rs` lines 172-190): takes the helper's
parameter list; if parameter 0 is absent or `as_u64` fails on it, the
helper returns a `RenderError` and writes nothing; otherwise it writes
`format!("{:#04X}", id)` and succeeds.  The `ok` payload is the string
written to the output. -/
def format_packet_id (params : List JsonValue) : Except RenderError String :=
  match (params.get? 0).bind JsonValue.as_u64 with
  | none => .error (.mk "Param 0 with u64 type is required for packet id helper.")
  | some id => .ok (formatHex04X id)

/-! ## State-passing form of the transformer

`transform_protocol` takes its two inputs by shared reference and returns
a fresh Protocol IR value; in the state-passing embedding the ambient
world (the file system `main` later writes to) and both inputs pass
through a run unchanged. -/

/-- The ambient state `main` interacts with: the files on disk.  The
transformer never touches it. -/
structure World where
  files : List (String × String)

/-- Modelled from the spec: a run of the Transformer with the ambient
world and both inputs threaded explicitly (spec §4.3: "Observable side
effects: none beyond producing the Protocol IR value; it performs no
I/O"; the `transformer` module is not under the given source tree).  The
result is the Protocol IR value together with the world, the mapping
table and the schema as they stand after the run. -/
def transformProtocolRun (w : World) (m : MappingTable) (st : State)
    (raw : RawProtocol) :
    Except TransError Protocol × World × MappingTable × RawProtocol :=
  (transform_protocol m st raw, w, m, raw)

/-! ## Primitive type names occurring in a field tree, and resolution
totality -/

mutual
/-- All primitive type names occurring anywhere in a field tree, in
traversal order. -/
def FieldType.primNames : FieldType → List String
  | .primitive name => [name]
  | .array _ elem => elem.primNames
  | .container fields => fields.primNames
  | .optional _ inner => inner.primNames
  | .switch _ variants dflt => variants.primNames ++ dflt.primNames
  | .bitfield _ => []

/-- All primitive type names occurring in a field list. -/
def Fields.primNames : Fields → List String
  | .nil => []
  | .cons _ ty rest => ty.primNames ++ rest.primNames

/-- All primitive type names occurring in a variant mapping. -/
def Variants.primNames : Variants → List String
  | .nil => []
  | .cons _ ty rest => ty.primNames ++ rest.primNames

/-- All primitive type names occurring in an optional default variant. -/
def FDefault.primNames : FDefault → List String
  | .noDefault => []
  | .withDefault ty => ty.primNames
end

/-- A transformation result that is not an `unknownType` failure (it may
still be any other outcome). -/
def NotUnknown {α : Type} (r : Except TransError α) : Prop :=
  ∀ s, r ≠ .error (.unknownType s)

/-- All primitive type names occurring in a raw packet's field tree. -/
def RawPacketSpec.primNames (p : RawPacketSpec) : List String :=
  p.fields.primNames

/-- All primitive type names occurring in a raw packet list. -/
def packetsPrimNames (l : List RawPacketSpec) : List String :=
  l.flatMap RawPacketSpec.primNames

/-- All primitive type names occurring anywhere in a raw per-phase
schema. -/
def RawProtocol.primNames (r : RawProtocol) : List String :=
  packetsPrimNames r.toServer ++ packetsPrimNames r.toClient

/-! ## Concrete sample data used in witnesses and counterexamples -/

/-- A small concrete mapping table for witnesses (the real
`CodeMappings` module is not under the given source tree). -/
def sampleTable : MappingTable where
  prims := [("varint", ("i32", ["crate::impl_varint"])),
            ("string", ("String", [])),
            ("bool", ("bool", []))]
  bitfieldStorage := fun _ => "u64"

/-- The spec §8 example schema for the Status phase: a server-bound
`Request` packet with no fields and a client-bound `Response` packet with
one string field. -/
def sampleStatusRaw : RawProtocol where
  toServer := [{ name := "Request", fields := .nil }]
  toClient :=
    [{ name := "Response",
       fields := .cons "json_response" (.primitive "string") .nil }]

/-- The Protocol IR value the transformer produces for
`sampleStatusRaw`. -/
def sampleStatusIR : Protocol where
  state := .Status
  server_bound_packets := [{ id := 0, name := "Request", fields := [] }]
  client_bound_packets :=
    [{ id := 0, name := "Response",
       fields := [("json_response", ⟨.prim "String", []⟩)] }]

/-- A variant mapping declaring two variants for the same discriminant
value `1`. -/
def dupVariants : Variants :=
  .cons "1" (.primitive "varint") (.cons "1" (.primitive "string") .nil)

/-- A schema document whose four phases all declare no packets. -/
def emptyHandler : ProtocolHandler where
  handshaking := ⟨[], []⟩
  status := ⟨[], []⟩
  login := ⟨[], []⟩
  game := ⟨[], []⟩

/-- File creation that always succeeds. -/
def createOk : String → Except String Unit := fun _ => .ok ()

/-- A template engine that renders every template successfully. -/
def renderOkEngine : TemplateEngine := fun t _ => .ok ("<" ++ t ++ ">")

/-- A template engine failing exactly on the Status server-bound
context. -/
def failStatusEngine : TemplateEngine := fun _ c =>
  match c with
  | .generateCtx n _ =>
    if n = "StatusServerBoundPacket" then .error (.mk "boom") else .ok ""
  | .importsCtx _ => .ok ""

/-- A template engine failing exactly on the Login server-bound
context. -/
def failLoginEngine : TemplateEngine := fun _ c =>
  match c with
  | .generateCtx n _ =>
    if n = "LoginServerBoundPacket" then .error (.mk "boom") else .ok ""
  | .importsCtx _ => .ok ""

/-- A template engine rendering non-empty text for every template except
the `packet_structs` template on the Status server-bound context, where
it fails. -/
def failStructsEngine : TemplateEngine := fun t c =>
  match t, c with
  | "packet_structs", .generateCtx n _ =>
    if n = "StatusServerBoundPacket" then .error (.mk "tmpl")
    else .ok ("S<" ++ n ++ ">")
  | "packet_enum", .generateCtx n _ => .ok ("E<" ++ n ++ ">")
  | _, _ => .ok "IMPORTS;"

/-- The Protocol IR value of an empty Status phase. -/
def statusEmptyIR : Protocol where
  state := .Status
  server_bound_packets := []
  client_bound_packets := []

/-- The same engine as `failStructsEngine` but with the failure removed:
every render succeeds. -/
def okStructsEngine : TemplateEngine := fun t c =>
  match t, c with
  | "packet_structs", .generateCtx n _ => .ok ("S<" ++ n ++ ">")
  | "packet_enum", .generateCtx n _ => .ok ("E<" ++ n ++ ">")
  | _, _ => .ok "IMPORTS;"

-- THEOREMS

/-! ## Lemmas about first-seen-order import unions -/

theorem mem_addImport (acc : List String) (i a : String) :
    a ∈ addImport acc i ↔ a ∈ acc ∨ a = i := by
  by_cases h : i ∈ acc <;> simp only [addImport, h, if_true, if_false, List.mem_append,
    List.mem_singleton, reduceIte]
  constructor
  · exact Or.inl
  · rintro (ha | rfl)
    · exact ha
    · exact h

theorem nodup_addImport (acc : List String) (i : String) (h : acc.Nodup) :
    (addImport acc i).Nodup := by
  by_cases hi : i ∈ acc <;> simp [addImport, hi, List.nodup_append, h]

theorem mem_importUnion (l acc : List String) (a : String) :
    a ∈ importUnion acc l ↔ a ∈ acc ∨ a ∈ l := by
  induction l generalizing acc with
  | nil => simp [importUnion]
  | cons x xs ih =>
    show a ∈ importUnion (addImport acc x) xs ↔ _
    rw [ih, mem_addImport]
    simp only [List.mem_cons]
    tauto

theorem nodup_importUnion (l acc : List String) (h : acc.Nodup) :
    (importUnion acc l).Nodup := by
  induction l generalizing acc with
  | nil => exact h
  | cons x xs ih =>
    show (importUnion (addImport acc x) xs).Nodup
    exact ih _ (nodup_addImport acc x h)

theorem mem_foldl_importUnion (ls : List (List String)) (acc : List String) (a : String) :
    a ∈ ls.foldl importUnion acc ↔ a ∈ acc ∨ ∃ l ∈ ls, a ∈ l := by
  induction ls generalizing acc with
  | nil => simp
  | cons x xs ih =>
    rw [List.foldl_cons, ih, mem_importUnion]
    simp only [List.mem_cons]
    constructor
    · rintro ((ha | hx) | ⟨l, hl, hal⟩)
      · exact Or.inl ha
      · exact Or.inr ⟨x, Or.inl rfl, hx⟩
      · exact Or.inr ⟨l, Or.inr hl, hal⟩
    · rintro (ha | ⟨l, (rfl | hl), hal⟩)
      · exact Or.inl (Or.inl ha)
      · exact Or.inl (Or.inr hal)
      · exact Or.inr ⟨l, hl, hal⟩

theorem nodup_foldl_importUnion (ls : List (List String)) (acc : List String)
    (h : acc.Nodup) : (ls.foldl importUnion acc).Nodup := by
  induction ls generalizing acc with
  | nil => exact h
  | cons x xs ih => exact ih _ (nodup_importUnion x acc h)

/-- The data-type import list of a Protocol IR value is deduplicated. -/
theorem data_type_imports_nodup (p : Protocol) : p.data_type_imports.Nodup :=
  nodup_foldl_importUnion _ _ List.nodup_nil

/-- Membership in the data-type import list: exactly the imports some
field of some packet (either direction) requires. -/
theorem mem_data_type_imports (p : Protocol) (i : String) :
    i ∈ p.data_type_imports ↔
      ∃ pk ∈ p.server_bound_packets ++ p.client_bound_packets,
        ∃ f ∈ pk.fields, i ∈ f.2.imports := by
  rw [Protocol.data_type_imports, mem_foldl_importUnion]
  simp only [List.not_mem_nil, false_or, Protocol.allFieldImportLists,
    List.mem_flatMap, List.mem_map]
  constructor
  · rintro ⟨l, ⟨pk, hpk, f, hf, rfl⟩, hil⟩
    exact ⟨pk, hpk, f, hf, hil⟩
  · rintro ⟨pk, hpk, f, hf, hif⟩
    exact ⟨f.2.imports, ⟨pk, hpk, f, hf, rfl⟩, hif⟩

/-! ## Lemmas about packet-id assignment -/

theorem transformPacketsAux_ok (m : MappingTable) (l : List RawPacketSpec) :
    ∀ (i : Nat) (ps : List Packet), transformPacketsAux m i l = .ok ps →
      ps.map Packet.id = List.range' i l.length ∧
      ps.map Packet.name = l.map RawPacketSpec.name := by
  induction l with
  | nil =>
    intro i ps h
    simp only [transformPacketsAux] at h
    cases h
    simp [List.range']
  | cons p rest ih =>
    intro i ps h
    simp only [transformPacketsAux] at h
    cases hf : resolveFields m p.fields with
    | error e => rw [hf] at h; cases h
    | ok fs =>
      rw [hf] at h
      cases hr : transformPacketsAux m (i + 1) rest with
      | error e => rw [hr] at h; cases h
      | ok ps' =>
        rw [hr] at h
        cases h
        have ⟨hid, hname⟩ := ih (i + 1) ps' hr
        refine ⟨?_, ?_⟩
        · simp only [List.map_cons, List.length_cons, List.range'_succ, hid]
        · simp only [List.map_cons, hname]

theorem transformPackets_ok (m : MappingTable) (l : List RawPacketSpec)
    (ps : List Packet) (h : transformPackets m l = .ok ps) :
    ps.map Packet.id = List.range l.length ∧
    ps.map Packet.name = l.map RawPacketSpec.name := by
  rw [transformPackets] at h
  split at h
  · have := transformPacketsAux_ok m l 0 ps h
    rwa [List.range_eq_range']
  · cases h

theorem notUnknown_ok {α : Type} (a : α) : NotUnknown (Except.ok a) := by
  intro s h
  cases h

theorem notUnknown_schemaFormat {α : Type} (msg : String) :
    NotUnknown (Except.error (TransError.schemaFormat msg) : Except TransError α) := by
  intro s h
  cases h

mutual
/-- Resolving a field tree whose every primitive name is in the mapping
table never fails with `unknownType`. -/
theorem resolveType_notUnknown (m : MappingTable) :
    (ft : FieldType) → (h : ∀ n ∈ ft.primNames, (m.lookupPrim n).isSome) →
      NotUnknown (resolveType m ft)
  | .primitive name, h => by
    have hs : (m.lookupPrim name).isSome := h name (by simp [FieldType.primNames])
    intro s
    simp only [resolveType]
    cases hl : m.lookupPrim name with
    | none => rw [hl] at hs; cases hs
    | some v => simp
  | .array len elem, h => by
    have ih := resolveType_notUnknown m elem (by
      intro n hn; exact h n (by simpa [FieldType.primNames] using hn))
    intro s
    simp only [resolveType]
    cases hr : resolveType m elem with
    | error e =>
      have := ih s
      rw [hr] at this
      simpa using this
    | ok r => simp
  | .container fields, h => by
    have ih := resolveFields_notUnknown m fields (by
      intro n hn; exact h n (by simpa [FieldType.primNames] using hn))
    intro s
    simp only [resolveType]
    cases hr : resolveFields m fields with
    | error e =>
      have := ih s
      rw [hr] at this
      simpa using this
    | ok rs => simp
  | .optional cond inner, h => by
    have ih := resolveType_notUnknown m inner (by
      intro n hn; exact h n (by simpa [FieldType.primNames] using hn))
    intro s
    simp only [resolveType]
    cases hr : resolveType m inner with
    | error e =>
      have := ih s
      rw [hr] at this
      simpa using this
    | ok r => simp
  | .switch disc variants dflt, h => by
    have ihv := resolveVariants_notUnknown m variants (by
      intro n hn
      exact h n (by simp [FieldType.primNames, List.mem_append]; exact Or.inl hn))
    have ihd := resolveDefault_notUnknown m dflt (by
      intro n hn
      exact h n (by simp [FieldType.primNames, List.mem_append]; exact Or.inr hn))
    intro s
    simp only [resolveType]
    split
    · simp
    · cases hv : resolveVariants m variants with
      | error e =>
        have := ihv s
        rw [hv] at this
        simpa using this
      | ok rs =>
        cases hd : resolveDefault m dflt with
        | error e =>
          have := ihd s
          rw [hd] at this
          simpa using this
        | ok rd => simp
  | .bitfield ranges, h => by
    intro s
    simp [resolveType]

/-- Resolving a field list whose every primitive name is in the mapping
table never fails with `unknownType`. -/
theorem resolveFields_notUnknown (m : MappingTable) :
    (fs : Fields) → (h : ∀ n ∈ fs.primNames, (m.lookupPrim n).isSome) →
      NotUnknown (resolveFields m fs)
  | .nil, h => by
    intro s
    simp [resolveFields]
  | .cons name ty rest, h => by
    have ih1 := resolveType_notUnknown m ty (by
      intro n hn
      exact h n (by simp [Fields.primNames, List.mem_append]; exact Or.inl hn))
    have ih2 := resolveFields_notUnknown m rest (by
      intro n hn
      exact h n (by simp [Fields.primNames, List.mem_append]; exact Or.inr hn))
    intro s
    simp only [resolveFields]
    cases h1 : resolveType m ty with
    | error e =>
      have := ih1 s
      rw [h1] at this
      simpa using this
    | ok r =>
      cases h2 : resolveFields m rest with
      | error e =>
        have := ih2 s
        rw [h2] at this
        simpa using this
      | ok rs => simp

/-- Resolving a variant mapping whose every primitive name is in the
mapping table never fails with `unknownType`. -/
theorem resolveVariants_notUnknown (m : MappingTable) :
    (vs : Variants) → (h : ∀ n ∈ vs.primNames, (m.lookupPrim n).isSome) →
      NotUnknown (resolveVariants m vs)
  | .nil, h => by
    intro s
    simp [resolveVariants]
  | .cons tag ty rest, h => by
    have ih1 := resolveType_notUnknown m ty (by
      intro n hn
      exact h n (by simp [Variants.primNames, List.mem_append]; exact Or.inl hn))
    have ih2 := resolveVariants_notUnknown m rest (by
      intro n hn
      exact h n (by simp [Variants.primNames, List.mem_append]; exact Or.inr hn))
    intro s
    simp only [resolveVariants]
    cases h1 : resolveType m ty with
    | error e =>
      have := ih1 s
      rw [h1] at this
      simpa using this
    | ok r =>
      cases h2 : resolveVariants m rest with
      | error e =>
        have := ih2 s
        rw [h2] at this
        simpa using this
      | ok rs => simp

/-- Resolving an optional default variant whose every primitive name is
in the mapping table never fails with `unknownType`. -/
theorem resolveDefault_notUnknown (m : MappingTable) :
    (d : FDefault) → (h : ∀ n ∈ d.primNames, (m.lookupPrim n).isSome) →
      NotUnknown (resolveDefault m d)
  | .noDefault, h => by
    intro s
    simp [resolveDefault]
  | .withDefault ty, h => by
    have ih := resolveType_notUnknown m ty (by
      intro n hn; exact h n (by simpa [FDefault.primNames] using hn))
    intro s
    simp only [resolveDefault]
    cases h1 : resolveType m ty with
    | error e =>
      have := ih s
      rw [h1] at this
      simpa using this
    | ok r => simp
end

theorem transformPacketsAux_notUnknown (m : MappingTable) (l : List RawPacketSpec)
    (h : ∀ n ∈ packetsPrimNames l, (m.lookupPrim n).isSome) :
    ∀ i : Nat, NotUnknown (transformPacketsAux m i l) := by
  induction l with
  | nil =>
    intro i s
    simp [transformPacketsAux]
  | cons p rest ih =>
    intro i s
    have hp : ∀ n ∈ p.fields.primNames, (m.lookupPrim n).isSome := by
      intro n hn
      exact h n (by simp [packetsPrimNames, RawPacketSpec.primNames]; exact Or.inl hn)
    have hrest : ∀ n ∈ packetsPrimNames rest, (m.lookupPrim n).isSome := by
      intro n hn
      simp only [packetsPrimNames, List.flatMap] at hn ⊢
      exact h n (by simp [packetsPrimNames, RawPacketSpec.primNames] at hn ⊢; exact Or.inr hn)
    simp only [transformPacketsAux]
    cases h1 : resolveFields m p.fields with
    | error e =>
      have := resolveFields_notUnknown m p.fields hp s
      rw [h1] at this
      simpa using this
    | ok fs =>
      cases h2 : transformPacketsAux m (i + 1) rest with
      | error e =>
        have := ih hrest (i + 1) s
        rw [h2] at this
        simpa using this
      | ok ps => simp

theorem transformPackets_notUnknown (m : MappingTable) (l : List RawPacketSpec)
    (h : ∀ n ∈ packetsPrimNames l, (m.lookupPrim n).isSome) :
    NotUnknown (transformPackets m l) := by
  intro s
  rw [transformPackets]
  split
  · exact transformPacketsAux_notUnknown m l h 0 s
  · simp

/-! ## Lemmas about `generate_rust_file` and the `main` output loop -/

theorem generate_rust_file_ok (te : TemplateEngine) (p : Protocol)
    (h : (generate_rust_file te p).2 = .ok ()) :
    ∃ s0 s1 s2 s3 s4,
      te "packet_imports" (.importsCtx (importsFor p)) = .ok s0 ∧
      te "packet_enum" (serverCtx p) = .ok s1 ∧
      te "packet_enum" (clientCtx p) = .ok s2 ∧
      te "packet_structs" (serverCtx p) = .ok s3 ∧
      te "packet_structs" (clientCtx p) = .ok s4 ∧
      (generate_rust_file te p).1 = s0 ++ s1 ++ s2 ++ s3 ++ s4 := by
  cases h0 : te "packet_imports" (.importsCtx (importsFor p)) with
  | error e =>
    have hg : generate_rust_file te p = ("", .error e) := by
      simp [generate_rust_file, h0]
    rw [hg] at h
    simp at h
  | ok s0 =>
  cases h1 : te "packet_enum" (serverCtx p) with
  | error e =>
    have hg : generate_rust_file te p = (s0, .error e) := by
      simp [generate_rust_file, h0, h1]
    rw [hg] at h
    simp at h
  | ok s1 =>
  cases h2 : te "packet_enum" (clientCtx p) with
  | error e =>
    have hg : generate_rust_file te p = (s0 ++ s1, .error e) := by
      simp [generate_rust_file, h0, h1, h2]
    rw [hg] at h
    simp at h
  | ok s2 =>
  cases h3 : te "packet_structs" (serverCtx p) with
  | error e =>
    have hg : generate_rust_file te p = (s0 ++ s1 ++ s2, .error e) := by
      simp [generate_rust_file, h0, h1, h2, h3]
    rw [hg] at h
    simp at h
  | ok s3 =>
  cases h4 : te "packet_structs" (clientCtx p) with
  | error e =>
    have hg : generate_rust_file te p = (s0 ++ s1 ++ s2 ++ s3, .error e) := by
      simp [generate_rust_file, h0, h1, h2, h3, h4]
    rw [hg] at h
    simp at h
  | ok s4 =>
    exact ⟨s0, s1, s2, s3, s4, rfl, rfl, rfl, rfl, rfl, by
      simp [generate_rust_file, h0, h1, h2, h3, h4]⟩

theorem mainLoop_success (te : TemplateEngine) (cf : String → Except String Unit) :
    ∀ (prots : List (Protocol × State)) (written files : List (String × String)),
      mainLoop te cf written prots = .success files →
      files = written ++
        prots.map (fun ps => (filePath ps.2, (generate_rust_file te ps.1).1)) ∧
      ∀ ps ∈ prots, (generate_rust_file te ps.1).2 = .ok () := by
  intro prots
  induction prots with
  | nil =>
    intro written files h
    simp only [mainLoop] at h
    cases h
    simp
  | cons p rest ih =>
    intro written files h
    obtain ⟨protocol, state⟩ := p
    simp only [mainLoop] at h
    split at h
    · cases h
    · split at h
      · cases h
      · rename_i content u heq
        have ⟨hf, hok⟩ := ih (written ++ [(filePath state, content)]) files h
        constructor
        · rw [hf]
          simp only [List.map_cons, List.append_assoc, List.singleton_append,
            List.cons_append]
          have : (generate_rust_file te protocol).1 = content := by rw [heq]
          rw [this]
          simp
        · intro ps hps
          rcases List.mem_cons.mp hps with hps | hps
          · rw [hps]
            simp only
            rw [heq]
          · exact hok ps hps

theorem mainLoop_abort (te : TemplateEngine) (cf : String → Except String Unit) :
    ∀ (prots : List (Protocol × State)) (written files : List (String × String))
      (c : Nat) (msg : String),
      mainLoop te cf written prots = .abort files c msg →
      c = 101 ∧
      ((∃ e, msg = "Failed to create file: " ++ e) ∨
       (∃ e, msg = "Failed to generate rust file: " ++ e)) := by
  intro prots
  induction prots with
  | nil =>
    intro written files c msg h
    simp only [mainLoop] at h
    cases h
  | cons p rest ih =>
    intro written files c msg h
    obtain ⟨protocol, state⟩ := p
    simp only [mainLoop] at h
    split at h
    · rename_i e heq
      cases h
      exact ⟨rfl, Or.inl ⟨e, rfl⟩⟩
    · split at h
      · rename_i content e heq
        cases h
        exact ⟨rfl, Or.inr ⟨e, rfl⟩⟩
      · exact ih _ files c msg h

theorem formatHex04X_length (id : Nat) : 4 ≤ (formatHex04X id).length := by
  have h0x : ("0x" : String).length = 2 := rfl
  simp only [formatHex04X, String.length_append, String.length_mk,
    List.length_replicate, h0x]
  omega

/-! ## Claim theorems -/

theorem map_id_eq_range_pointwise {ps : List Packet} {n : Nat}
    (h : ps.map Packet.id = List.range n) :
    ∀ k (hk : k < ps.length), (ps.get ⟨k, hk⟩).id = k := by
  intro k hk
  have hl := congrArg List.length h
  simp only [List.length_map, List.length_range] at hl
  have hk' : k < n := by omega
  have h1 : (ps.map Packet.id)[k]? = (List.range n)[k]? := by rw [h]
  rw [List.getElem?_map, List.getElem?_eq_getElem hk,
    List.getElem?_range hk'] at h1
  simpa using h1

/-- C1: for every schema and every (phase, direction) group, the wire id
assigned to the packet at zero-based position `k` of that group's
declared packet list is exactly `k`, regardless of the packet's name or
field contents, and the transformer never reorders packets relative to
the declaration order: the id list of each direction is `[0, ..., n-1]`
and the name list coincides with the declared name list. -/
theorem C1_wire_ids_are_declaration_positions (m : MappingTable) (st : State)
    (raw : RawProtocol) (p : Protocol)
    (h : transform_protocol m st raw = .ok p) :
    p.server_bound_packets.map Packet.id = List.range raw.toServer.length ∧
    p.server_bound_packets.map Packet.name = raw.toServer.map RawPacketSpec.name ∧
    p.client_bound_packets.map Packet.id = List.range raw.toClient.length ∧
    p.client_bound_packets.map Packet.name = raw.toClient.map RawPacketSpec.name ∧
    (∀ k (hk : k < p.server_bound_packets.length),
      (p.server_bound_packets.get ⟨k, hk⟩).id = k) ∧
    (∀ k (hk : k < p.client_bound_packets.length),
      (p.client_bound_packets.get ⟨k, hk⟩).id = k) := by
  rw [transform_protocol] at h
  cases h1 : transformPackets m raw.toServer with
  | error e => rw [h1] at h; cases h
  | ok sb =>
    rw [h1] at h
    cases h2 : transformPackets m raw.toClient with
    | error e => rw [h2] at h; cases h
    | ok cb =>
      rw [h2] at h
      cases h
      have hs := transformPackets_ok m raw.toServer sb h1
      have hc := transformPackets_ok m raw.toClient cb h2
      exact ⟨hs.1, hs.2, hc.1, hc.2,
        map_id_eq_range_pointwise hs.1, map_id_eq_range_pointwise hc.1⟩

theorem C1_witness :
    sampleStatusIR.client_bound_packets.map Packet.id =
      List.range sampleStatusRaw.toClient.length ∧
    sampleStatusIR.server_bound_packets.map Packet.name =
      sampleStatusRaw.toServer.map RawPacketSpec.name :=
  ⟨(C1_wire_ids_are_declaration_positions sampleTable .Status sampleStatusRaw
      sampleStatusIR rfl).2.2.1,
   (C1_wire_ids_are_declaration_positions sampleTable .Status sampleStatusRaw
      sampleStatusIR rfl).2.1⟩

/-- C2: a switch field whose variant mapping declares two variants for
the same discriminant value resolves to a schema-format collision error;
it never succeeds by silently keeping one of the two variants. -/
theorem C2_switch_duplicate_discriminant_collides (m : MappingTable)
    (disc : String) (vs : Variants) (d : FDefault)
    (h : ¬ vs.tags.Nodup) :
    resolveType m (.switch disc vs d) =
      .error (.schemaFormat "duplicate switch discriminant value") := by
  have hd : vs.hasDupTag = true := by
    simp [Variants.hasDupTag, h]
  simp [resolveType, hd]

theorem C2_witness :
    resolveType sampleTable (.switch "d" dupVariants .noDefault) =
      .error (.schemaFormat "duplicate switch discriminant value") :=
  C2_switch_duplicate_discriminant_collides sampleTable "d" dupVariants
    .noDefault (by decide)

/-- C3: the import list handed to the imports template for a phase's
output file is exactly the fixed baseline imports `crate::DecodeError`,
`crate::Decoder`, `std::io::Read`, `minecraft_protocol_derive::Packet`,
in that order and first, followed by exactly the data-type imports
required by the fields of the protocol's packets: an import is in the
data-type list if and only if some field of some packet requires it. -/
theorem C3_file_imports_are_baseline_then_field_imports (p : Protocol) :
    importsFor p =
      ["crate::DecodeError", "crate::Decoder", "std::io::Read",
       "minecraft_protocol_derive::Packet"] ++ p.data_type_imports ∧
    ∀ i, i ∈ p.data_type_imports ↔
      ∃ pk ∈ p.server_bound_packets ++ p.client_bound_packets,
        ∃ f ∈ pk.fields, i ∈ f.2.imports :=
  ⟨rfl, fun i => mem_data_type_imports p i⟩

/-- C4: the Transformer is deterministic — equal inputs yield identical
Protocol IR values, in particular identically ordered import lists — and
the import list of every produced Protocol IR value is deduplicated and
is exactly the first-seen-order fold over the schema-order traversal of
the packets' field import lists. -/
theorem C4_transform_deterministic_imports_deduped
    (m₁ m₂ : MappingTable) (st₁ st₂ : State) (raw₁ raw₂ : RawProtocol)
    (hm : m₁ = m₂) (hst : st₁ = st₂) (hraw : raw₁ = raw₂) :
    transform_protocol m₁ st₁ raw₁ = transform_protocol m₂ st₂ raw₂ ∧
    ∀ p, transform_protocol m₁ st₁ raw₁ = .ok p →
      p.data_type_imports.Nodup ∧
      p.data_type_imports = p.allFieldImportLists.foldl importUnion [] := by
  subst hm
  subst hst
  subst hraw
  exact ⟨rfl, fun p _ => ⟨data_type_imports_nodup p, rfl⟩⟩

theorem C4_witness :
    sampleStatusIR.data_type_imports.Nodup ∧
    sampleStatusIR.data_type_imports =
      sampleStatusIR.allFieldImportLists.foldl importUnion [] :=
  (C4_transform_deterministic_imports_deduped sampleTable sampleTable
    .Status .Status sampleStatusRaw sampleStatusRaw rfl rfl rfl).2
    sampleStatusIR rfl

/-- C5: for a schema whose every primitive type name occurring in any
field tree has an entry in the mapping table, the transformation never
fails with an unknown-type error. -/
theorem C5_totality_no_unknownType (m : MappingTable) (st : State)
    (raw : RawProtocol)
    (h : ∀ n ∈ raw.primNames, (m.lookupPrim n).isSome) :
    ∀ s, transform_protocol m st raw ≠ .error (.unknownType s) := by
  have hs : ∀ n ∈ packetsPrimNames raw.toServer, (m.lookupPrim n).isSome := by
    intro n hn
    exact h n (by simp only [RawProtocol.primNames, List.mem_append]; exact Or.inl hn)
  have hc : ∀ n ∈ packetsPrimNames raw.toClient, (m.lookupPrim n).isSome := by
    intro n hn
    exact h n (by simp only [RawProtocol.primNames, List.mem_append]; exact Or.inr hn)
  intro s
  rw [transform_protocol]
  cases h1 : transformPackets m raw.toServer with
  | error e =>
    have := transformPackets_notUnknown m raw.toServer hs s
    rw [h1] at this
    simpa using this
  | ok sb =>
    cases h2 : transformPackets m raw.toClient with
    | error e =>
      have := transformPackets_notUnknown m raw.toClient hc s
      rw [h2] at this
      simpa using this
    | ok cb => simp

theorem C5_witness :
    transform_protocol sampleTable .Status sampleStatusRaw ≠
      .error (.unknownType "fooInt24") :=
  C5_totality_no_unknownType sampleTable .Status sampleStatusRaw (by decide)
    "fooInt24"

/-- C6 as stated is false on the code: two runs that fail while
generating the files of two different phases (the Status render fails in
one run, the Login render in the other, as the differing sets of files
already written show) abort with the very same top-level message, the
fixed `.expect` string of `main.rs` line 72 — so the message identifies
neither the failing phase nor a packet nor a field. -/
theorem C6_counterexample :
    mainRun sampleTable (.ok ()) (.ok emptyHandler) createOk failStatusEngine =
      .abort [("protocol/src/packet/handshake.rs", ""),
              ("protocol/src/packet/status.rs", "")] 101
        "Failed to generate rust file: boom" ∧
    mainRun sampleTable (.ok ()) (.ok emptyHandler) createOk failLoginEngine =
      .abort [("protocol/src/packet/handshake.rs", ""),
              ("protocol/src/packet/status.rs", ""),
              ("protocol/src/packet/login.rs", "")] 101
        "Failed to generate rust file: boom" ∧
    ([("protocol/src/packet/handshake.rs", ""),
      ("protocol/src/packet/status.rs", "")] : List (String × String)) ≠
      [("protocol/src/packet/handshake.rs", ""),
       ("protocol/src/packet/status.rs", ""),
       ("protocol/src/packet/login.rs", "")] :=
  ⟨by decide, by decide, by decide⟩

/-- C6 (amended): every failing run aborts — no error is swallowed or
downgraded, the outcome is the non-zero panic exit code 101, and no
failing run returns success — but the top-level message is merely the
failing stage's fixed `.expect` string followed by the underlying
error's own text; only a transformer-stage failure names the phase, and
no message of the output stages identifies the failing phase, packet or
field. -/
theorem C6_amended_abort_nonzero_with_fixed_stage_message
    (m : MappingTable) (openR : Except String Unit)
    (parseR : Except String ProtocolHandler)
    (cf : String → Except String Unit) (te : TemplateEngine)
    (files : List (String × String)) (c : Nat) (msg : String)
    (h : mainRun m openR parseR cf te = .abort files c msg) :
    c = 101 ∧ c ≠ 0 ∧
    ((∃ e, msg = "Failed to open protocol data file: " ++ e) ∨
     (∃ e, msg = "Failed to parse protocol data: " ++ e) ∨
     (∃ st e, msg = transErrorMsg st e) ∨
     (∃ e, msg = "Failed to create file: " ++ e) ∨
     (∃ e, msg = "Failed to generate rust file: " ++ e)) ∧
    ∀ fs, mainRun m openR parseR cf te ≠ .success fs := by
  have hns : ∀ fs, mainRun m openR parseR cf te ≠ .success fs := by
    intro fs hf
    rw [h] at hf
    cases hf
  unfold mainRun at h
  split at h
  · injection h with h1 h2 h3
    subst h2
    subst h3
    exact ⟨rfl, by decide, Or.inl ⟨_, rfl⟩, hns⟩
  · split at h
    · injection h with h1 h2 h3
      subst h2
      subst h3
      exact ⟨rfl, by decide, Or.inr (Or.inl ⟨_, rfl⟩), hns⟩
    · split at h
      · injection h with h1 h2 h3
        subst h2
        subst h3
        exact ⟨rfl, by decide, Or.inr (Or.inr (Or.inl ⟨_, _, rfl⟩)), hns⟩
      · have hma := mainLoop_abort te cf _ [] files c msg h
        rcases hma with ⟨hc, hmsg⟩
        refine ⟨hc, by rw [hc]; decide, ?_, hns⟩
        rcases hmsg with h4 | h5
        · exact Or.inr (Or.inr (Or.inr (Or.inl h4)))
        · exact Or.inr (Or.inr (Or.inr (Or.inr h5)))

theorem C6_witness :
    (101 : Nat) = 101 ∧ (101 : Nat) ≠ 0 ∧
    ((∃ e, "Failed to generate rust file: boom" =
        "Failed to open protocol data file: " ++ e) ∨
     (∃ e, "Failed to generate rust file: boom" =
        "Failed to parse protocol data: " ++ e) ∨
     (∃ st e, "Failed to generate rust file: boom" = transErrorMsg st e) ∨
     (∃ e, "Failed to generate rust file: boom" =
        "Failed to create file: " ++ e) ∨
     (∃ e, "Failed to generate rust file: boom" =
        "Failed to generate rust file: " ++ e)) ∧
    ∀ fs, mainRun sampleTable (.ok ()) (.ok emptyHandler) createOk
      failStatusEngine ≠ .success fs :=
  C6_amended_abort_nonzero_with_fixed_stage_message sampleTable (.ok ())
    (.ok emptyHandler) createOk failStatusEngine
    [("protocol/src/packet/handshake.rs", ""),
     ("protocol/src/packet/status.rs", "")] 101
    "Failed to generate rust file: boom" (by decide)

/-- C7 as stated is false on the code: a run whose Status-phase
`packet_structs` render fails leaves, at the final output path
`protocol/src/packet/status.rs` (the very path a successful run uses —
no temporary location, no rename), the non-empty concatenation of the
renders that had already succeeded; that content is a proper prefix of
the file a fully successful run writes, with no failure marker of any
kind appended. -/
theorem C7_counterexample :
    mainRun sampleTable (.ok ()) (.ok emptyHandler) createOk failStructsEngine =
      .abort
        [("protocol/src/packet/handshake.rs",
          "IMPORTS;E<HandshakeServerBoundPacket>E<HandshakeClientBoundPacket>S<HandshakeServerBoundPacket>S<HandshakeClientBoundPacket>"),
         ("protocol/src/packet/status.rs",
          "IMPORTS;E<StatusServerBoundPacket>E<StatusClientBoundPacket>")]
        101 "Failed to generate rust file: tmpl" ∧
    "IMPORTS;E<StatusServerBoundPacket>E<StatusClientBoundPacket>" ≠ "" ∧
    mainRun sampleTable (.ok ()) (.ok emptyHandler) createOk okStructsEngine =
      .success
        [("protocol/src/packet/handshake.rs",
          "IMPORTS;E<HandshakeServerBoundPacket>E<HandshakeClientBoundPacket>S<HandshakeServerBoundPacket>S<HandshakeClientBoundPacket>"),
         ("protocol/src/packet/status.rs",
          "IMPORTS;E<StatusServerBoundPacket>E<StatusClientBoundPacket>S<StatusServerBoundPacket>S<StatusClientBoundPacket>"),
         ("protocol/src/packet/login.rs",
          "IMPORTS;E<LoginServerBoundPacket>E<LoginClientBoundPacket>S<LoginServerBoundPacket>S<LoginClientBoundPacket>"),
         ("protocol/src/packet/game.rs",
          "IMPORTS;E<GameServerBoundPacket>E<GameClientBoundPacket>S<GameServerBoundPacket>S<GameClientBoundPacket>")] ∧
    "IMPORTS;E<StatusServerBoundPacket>E<StatusClientBoundPacket>" ++
        "S<StatusServerBoundPacket>S<StatusClientBoundPacket>" =
      "IMPORTS;E<StatusServerBoundPacket>E<StatusClientBoundPacket>S<StatusServerBoundPacket>S<StatusClientBoundPacket>" ∧
    "IMPORTS;E<StatusServerBoundPacket>E<StatusClientBoundPacket>" ≠
      "IMPORTS;E<StatusServerBoundPacket>E<StatusClientBoundPacket>S<StatusServerBoundPacket>S<StatusClientBoundPacket>" :=
  ⟨by decide, by decide, by decide, by decide, by decide⟩

/-- C7 (amended): when rendering fails at any of the five stages,
`generate_rust_file` returns the concatenation of the earlier successful
renders — exactly what the writer already received, with no marker
appended — together with the error, and the output loop records that
partial content at the phase's final output path; writes go directly to
the destination file with no temporary location or rename. -/
theorem C7_amended_failure_leaves_rendered_prefix_at_final_path
    (te : TemplateEngine) (p : Protocol) :
    (∀ e, te "packet_imports" (.importsCtx (importsFor p)) = .error e →
      generate_rust_file te p = ("", .error e)) ∧
    (∀ s0 e, te "packet_imports" (.importsCtx (importsFor p)) = .ok s0 →
      te "packet_enum" (serverCtx p) = .error e →
      generate_rust_file te p = (s0, .error e)) ∧
    (∀ s0 s1 e, te "packet_imports" (.importsCtx (importsFor p)) = .ok s0 →
      te "packet_enum" (serverCtx p) = .ok s1 →
      te "packet_enum" (clientCtx p) = .error e →
      generate_rust_file te p = (s0 ++ s1, .error e)) ∧
    (∀ s0 s1 s2 e, te "packet_imports" (.importsCtx (importsFor p)) = .ok s0 →
      te "packet_enum" (serverCtx p) = .ok s1 →
      te "packet_enum" (clientCtx p) = .ok s2 →
      te "packet_structs" (serverCtx p) = .error e →
      generate_rust_file te p = (s0 ++ s1 ++ s2, .error e)) ∧
    (∀ s0 s1 s2 s3 e, te "packet_imports" (.importsCtx (importsFor p)) = .ok s0 →
      te "packet_enum" (serverCtx p) = .ok s1 →
      te "packet_enum" (clientCtx p) = .ok s2 →
      te "packet_structs" (serverCtx p) = .ok s3 →
      te "packet_structs" (clientCtx p) = .error e →
      generate_rust_file te p = (s0 ++ s1 ++ s2 ++ s3, .error e)) ∧
    (∀ (cf : String → Except String Unit)
      (written : List (String × String)) (st : State)
      (rest : List (Protocol × State)) (content : String) (e : String),
      cf (filePath st) = .ok () →
      generate_rust_file te p = (content, .error (.mk e)) →
      mainLoop te cf written ((p, st) :: rest) =
        .abort (written ++ [(filePath st, content)]) 101
          ("Failed to generate rust file: " ++ e)) := by
  refine ⟨?_, ?_, ?_, ?_, ?_, ?_⟩
  · intro e h0
    simp [generate_rust_file, h0]
  · intro s0 e h0 h1
    simp [generate_rust_file, h0, h1]
  · intro s0 s1 e h0 h1 h2
    simp [generate_rust_file, h0, h1, h2]
  · intro s0 s1 s2 e h0 h1 h2 h3
    simp [generate_rust_file, h0, h1, h2, h3]
  · intro s0 s1 s2 s3 e h0 h1 h2 h3 h4
    simp [generate_rust_file, h0, h1, h2, h3, h4]
  · intro cf written st rest content e hcf hgen
    simp [mainLoop, hcf, hgen]

theorem C7_witness :
    mainLoop failStructsEngine createOk [] [(statusEmptyIR, .Status)] =
      .abort ([] ++ [(filePath .Status,
        "IMPORTS;E<StatusServerBoundPacket>E<StatusClientBoundPacket>")]) 101
        ("Failed to generate rust file: " ++ "tmpl") :=
  (C7_amended_failure_leaves_rendered_prefix_at_final_path failStructsEngine
    statusEmptyIR).2.2.2.2.2 createOk [] .Status []
    "IMPORTS;E<StatusServerBoundPacket>E<StatusClientBoundPacket>" "tmpl"
    rfl rfl

/-- C8: every successful run emits exactly one output file per phase,
for the fixed phases Handshake, Status, Login, Game in that order, and
each file's content is rendered in the order: import list, then the
packet-id enumeration for the server-bound then the client-bound
direction, then the packet struct definitions for the server-bound then
the client-bound direction. -/
theorem C8_success_emits_four_phase_files_in_order
    (m : MappingTable) (openR : Except String Unit)
    (parseR : Except String ProtocolHandler)
    (cf : String → Except String Unit) (te : TemplateEngine)
    (files : List (String × String))
    (h : mainRun m openR parseR cf te = .success files) :
    ∃ (input : ProtocolHandler) (p1 p2 p3 p4 : Protocol),
      parseR = .ok input ∧
      transform_protocol m .Handshake input.handshaking = .ok p1 ∧
      transform_protocol m .Status input.status = .ok p2 ∧
      transform_protocol m .Login input.login = .ok p3 ∧
      transform_protocol m .Game input.game = .ok p4 ∧
      files = [(filePath .Handshake, (generate_rust_file te p1).1),
               (filePath .Status, (generate_rust_file te p2).1),
               (filePath .Login, (generate_rust_file te p3).1),
               (filePath .Game, (generate_rust_file te p4).1)] ∧
      ∀ p ∈ [p1, p2, p3, p4],
        ∃ s0 s1 s2 s3 s4,
          te "packet_imports" (.importsCtx (importsFor p)) = .ok s0 ∧
          te "packet_enum" (serverCtx p) = .ok s1 ∧
          te "packet_enum" (clientCtx p) = .ok s2 ∧
          te "packet_structs" (serverCtx p) = .ok s3 ∧
          te "packet_structs" (clientCtx p) = .ok s4 ∧
          (generate_rust_file te p).1 = s0 ++ s1 ++ s2 ++ s3 ++ s4 := by
  unfold mainRun at h
  split at h
  · cases h
  · split at h
    · cases h
    · rename_i input
      split at h
      · cases h
      · rename_i protocols heq
        rw [transformStage] at heq
        split at heq
        · cases heq
        · rename_i p1 h1
          split at heq
          · cases heq
          · rename_i p2 h2
            split at heq
            · cases heq
            · rename_i p3 h3
              split at heq
              · cases heq
              · rename_i p4 h4
                injection heq with heq
                subst heq
                obtain ⟨hfiles, hok⟩ := mainLoop_success te cf _ [] files h
                refine ⟨input, p1, p2, p3, p4, rfl, h1, h2, h3, h4, ?_, ?_⟩
                · rw [hfiles]
                  rfl
                · intro p hp
                  have hgen : (generate_rust_file te p).2 = .ok () := by
                    simp only [List.mem_cons, List.not_mem_nil, or_false] at hp
                    rcases hp with rfl | rfl | rfl | rfl
                    · exact hok (_, .Handshake) (List.mem_cons_self _ _)
                    · exact hok (_, .Status)
                        (List.mem_cons_of_mem _ (List.mem_cons_self _ _))
                    · exact hok (_, .Login)
                        (List.mem_cons_of_mem _ (List.mem_cons_of_mem _
                          (List.mem_cons_self _ _)))
                    · exact hok (_, .Game)
                        (List.mem_cons_of_mem _ (List.mem_cons_of_mem _
                          (List.mem_cons_of_mem _ (List.mem_cons_self _ _))))
                  exact generate_rust_file_ok te p hgen

theorem C8_witness :
    ∃ (input : ProtocolHandler) (p1 p2 p3 p4 : Protocol),
      (.ok emptyHandler : Except String ProtocolHandler) = .ok input ∧
      transform_protocol sampleTable .Handshake input.handshaking = .ok p1 ∧
      transform_protocol sampleTable .Status input.status = .ok p2 ∧
      transform_protocol sampleTable .Login input.login = .ok p3 ∧
      transform_protocol sampleTable .Game input.game = .ok p4 ∧
      [("protocol/src/packet/handshake.rs",
        "<packet_imports><packet_enum><packet_enum><packet_structs><packet_structs>"),
       ("protocol/src/packet/status.rs",
        "<packet_imports><packet_enum><packet_enum><packet_structs><packet_structs>"),
       ("protocol/src/packet/login.rs",
        "<packet_imports><packet_enum><packet_enum><packet_structs><packet_structs>"),
       ("protocol/src/packet/game.rs",
        "<packet_imports><packet_enum><packet_enum><packet_structs><packet_structs>")] =
        [(filePath .Handshake, (generate_rust_file renderOkEngine p1).1),
         (filePath .Status, (generate_rust_file renderOkEngine p2).1),
         (filePath .Login, (generate_rust_file renderOkEngine p3).1),
         (filePath .Game, (generate_rust_file renderOkEngine p4).1)] ∧
      ∀ p ∈ [p1, p2, p3, p4],
        ∃ s0 s1 s2 s3 s4,
          renderOkEngine "packet_imports" (.importsCtx (importsFor p)) = .ok s0 ∧
          renderOkEngine "packet_enum" (serverCtx p) = .ok s1 ∧
          renderOkEngine "packet_enum" (clientCtx p) = .ok s2 ∧
          renderOkEngine "packet_structs" (serverCtx p) = .ok s3 ∧
          renderOkEngine "packet_structs" (clientCtx p) = .ok s4 ∧
          (generate_rust_file renderOkEngine p).1 = s0 ++ s1 ++ s2 ++ s3 ++ s4 :=
  C8_success_emits_four_phase_files_in_order sampleTable (.ok ())
    (.ok emptyHandler) createOk renderOkEngine
    [("protocol/src/packet/handshake.rs",
      "<packet_imports><packet_enum><packet_enum><packet_structs><packet_structs>"),
     ("protocol/src/packet/status.rs",
      "<packet_imports><packet_enum><packet_enum><packet_structs><packet_structs>"),
     ("protocol/src/packet/login.rs",
      "<packet_imports><packet_enum><packet_enum><packet_structs><packet_structs>"),
     ("protocol/src/packet/game.rs",
      "<packet_imports><packet_enum><packet_enum><packet_structs><packet_structs>")]
    (by decide)

/-- C9: the Transformer is a pure function of the Schema Model and the
Mapping Table: in the state-passing embedding a run returns the ambient
world, the mapping table and the schema unchanged, its result component
is exactly the pure `transform_protocol` applied to the two inputs, and
that result is independent of the ambient world. -/
theorem C9_transformer_is_pure (w w' : World) (m : MappingTable) (st : State)
    (raw : RawProtocol) :
    (transformProtocolRun w m st raw).1 = transform_protocol m st raw ∧
    (transformProtocolRun w m st raw).2.1 = w ∧
    (transformProtocolRun w m st raw).2.2.1 = m ∧
    (transformProtocolRun w m st raw).2.2.2 = raw ∧
    (transformProtocolRun w m st raw).1 = (transformProtocolRun w' m st raw).1 :=
  ⟨rfl, rfl, rfl, rfl, rfl⟩

/-- C10: the packet-id template helper: when parameter 0 is absent or
its value is not representable as a `u64`, it returns a `RenderError`
(and writes no output); otherwise it writes the id as 0x-prefixed
uppercase hexadecimal zero-padded to a minimum total width of 4
characters — in particular id 0 renders as `0x00`, and every rendering
has length at least 4. -/
theorem C10_format_packet_id_contract (params : List JsonValue) :
    ((params.get? 0).bind JsonValue.as_u64 = none →
      format_packet_id params =
        .error (.mk "Param 0 with u64 type is required for packet id helper.")) ∧
    (∀ i, (params.get? 0).bind JsonValue.as_u64 = some i →
      format_packet_id params = .ok (formatHex04X i)) ∧
    formatHex04X 0 = "0x00" ∧
    (∀ i, 4 ≤ (formatHex04X i).length) := by
  refine ⟨?_, ?_, rfl, formatHex04X_length⟩
  · intro h
    rw [List.get?_eq_getElem?] at h
    simp [format_packet_id, h]
  · intro i h
    rw [List.get?_eq_getElem?] at h
    simp [format_packet_id, h]

theorem C10_witness : format_packet_id [JsonValue.intNum 0] = .ok "0x00" := by
  have h := C10_format_packet_id_contract [JsonValue.intNum 0]
  have h2 := h.2.1 0 (by decide)
  rw [h2, h.2.2.1]

end MCProto
